import Mathlib

/-
Shallow embedding of `src/npg_irods/utilities.py` (npg-irods-python).

The file embeds, faithfully to the Python source:
  * the per-item worker functions (`fn`) of `check_checksums`,
    `repair_checksums`, `repair_replicas`, `check_common_metadata` and
    `repair_common_metadata`, together with the aggregate-count driver logic;
  * the copy engine `copy` with its helpers `_maybe_copy_obj` and
    `_maybe_copy_coll`, the external `_icp` primitive being an oracle;
  * the safe-removal planner `write_safe_remove_commands`.

External effects (the iRODS server, reached through the `partisan` client)
are shallowness boundaries: an item fetch either raises (`Fetch.err`,
standing for `RodsError` or any other exception caught by the per-item
`except` blocks) or yields a snapshot of the item's state.  Predicates from
`npg_irods.metadata.common` (repository code not present under `src/`) are
modelled from the spec; each such definition says so in its doc comment.
-/

namespace NpgIrods

/-- One replica of a data object: a checksum (possibly absent) and a
validity flag, as in the spec's data model (§3). -/
structure Replica where
  checksum : Option String
  valid : Bool
deriving DecidableEq, Repr

/-- The checksums of the valid replicas of a data object, in replica
order.  Support definition shared by the spec-modelled checksum
predicates. -/
def checksum_list (replicas : List Replica) : List (Option String) :=
  (replicas.filter (·.valid)).map (·.checksum)

/-- Modelled from the spec: `has_matching_checksums` from
`npg_irods.metadata.common` (not under `src/`): "true iff all valid
replicas' checksums are equal (vacuously true for 0 or 1 valid replica)"
(spec §4.1). -/
def has_matching_checksums (replicas : List Replica) : Bool :=
  match checksum_list replicas with
  | [] => true
  | c :: cs => cs.all (· == c)

/-- Modelled from the spec: `has_complete_checksums` from
`npg_irods.metadata.common` (not under `src/`): "true iff every valid
replica has a non-empty checksum" (spec §4.1). -/
def has_complete_checksums (replicas : List Replica) : Bool :=
  (checksum_list replicas).all (·.isSome)

/-- Snapshot of a data object's checksum-relevant state: its replicas and
the values of its checksum AVUs (AVUs whose attribute is the checksum
attribute, `DataFile.MD5`). -/
structure ChkItem where
  replicas : List Replica
  checksumAvus : List String
deriving DecidableEq, Repr

/-- The checksum agreed by all valid replicas: `some c` when there is at
least one valid replica, all valid replicas carry the same checksum and
that checksum is present; `none` otherwise.  Support definition for the
spec-modelled checksum-metadata predicates. -/
def replica_agreed_checksum (it : ChkItem) : Option String :=
  match checksum_list it.replicas with
  | [] => none
  | c :: cs => if cs.all (· == c) then c else none

/-- Modelled from the spec: `has_matching_checksum_metadata` from
`npg_irods.metadata.common` (not under `src/`): "true iff exactly one
checksum AVU exists and its value equals the replica-agreed checksum
(requires `hasMatchingChecksums` first)" (spec §4.1). -/
def has_matching_checksum_metadata (it : ChkItem) : Bool :=
  has_matching_checksums it.replicas &&
    match replica_agreed_checksum it with
    | some c => it.checksumAvus == [c]
    | none => false

/-- Modelled from the spec: `ensure_matching_checksum_metadata` from
`npg_irods.metadata.common` (not under `src/`), spec §4.3 Repair: when the
valid replicas agree on a present checksum the AVU set is replaced with
exactly one AVU equal to the agreed value and the repair succeeds; "if
replicas disagree, or some valid replica lacks a checksum, repair is
refused (returns success=false)" and the item is left unchanged. -/
def ensure_matching_checksum_metadata (it : ChkItem) : Bool × ChkItem :=
  match replica_agreed_checksum it with
  | some c => (true, { it with checksumAvus := [c] })
  | none => (false, it)

/-- Outcome of fetching/processing one input path: `err` stands for any
exception raised while the item is processed (`RodsError`,
`ChecksumError`, or any other `Exception`), which the per-item `except`
blocks in the source catch; `ok` carries the item snapshot. -/
inductive Fetch (α : Type) where
  | err : Fetch α
  | ok : α → Fetch α
deriving DecidableEq, Repr

/-- Per-item worker of `check_checksums` (utilities.py lines 92-134):
success iff `has_matching_checksum_metadata`; any exception is caught and
yields success = false.  The second component is the item state after the
check (the check only reads, so it is the input state). -/
def checkChecksumsFn : Fetch ChkItem → Bool × Option ChkItem
  | Fetch.err => (false, none)
  | Fetch.ok it => (has_matching_checksum_metadata it, some it)

/-- The aggregate logic of `check_checksums` (utilities.py lines 136-140):
`results = starmap(fn, enumerate(reader))`, returning
`(len(results), results.count(True), len(results) - results.count(True))`. -/
def check_checksums (inputs : List (Fetch ChkItem)) : Nat × Nat × Nat :=
  let results := inputs.map (fun f => (checkChecksumsFn f).1)
  (results.length, results.count true, results.length - results.count true)

/-- Per-item worker of `repair_checksums` (utilities.py lines 187-224):
if the checksum metadata already matches, success with no repair;
otherwise delegate to `ensure_matching_checksum_metadata`, and
`success = repair = True` only when the delegate reports success.  Any
exception is caught and yields `(false, false)`.  The last component is
the item state after the call (`none` when the fetch itself failed). -/
def repairChecksumsFn : Fetch ChkItem → (Bool × Bool) × Option ChkItem
  | Fetch.err => ((false, false), none)
  | Fetch.ok it =>
    if has_matching_checksum_metadata it then
      ((true, false), some it)
    else
      match ensure_matching_checksum_metadata it with
      | (true, it') => ((true, true), some it')
      | (false, it') => ((false, false), some it')

/-- The aggregate logic of `repair_checksums` (utilities.py lines 226-230):
`results, repaired = zip(*starmap(fn, enumerate(reader)))`, returning
`(len(results), repaired.count(True), len(results) - results.count(True))`.
(The Python `zip(*...)` unpacking raises on an empty input; that edge case
is not modelled.) -/
def repair_checksums (inputs : List (Fetch ChkItem)) : Nat × Nat × Nat :=
  let pairs := inputs.map (fun f => (repairChecksumsFn f).1)
  (pairs.length,
    (pairs.map Prod.snd).count true,
    pairs.length - (pairs.map Prod.fst).count true)

/-- Modelled from the spec: `has_complete_replicas` from
`npg_irods.metadata.common` (not under `src/`): "true iff the number of
valid replicas equals the expected count `n`" (spec §4.1). -/
def has_complete_replicas (it : ChkItem) (num_replicas : Nat) : Bool :=
  (it.replicas.filter (·.valid)).length == num_replicas

/-- Modelled from the spec: `has_trimmable_replicas` from
`npg_irods.metadata.common` (not under `src/`): "true iff there exist
invalid replicas (always trimmable) or more valid replicas than `n`
(excess trimmable)" (spec §4.1). -/
def has_trimmable_replicas (it : ChkItem) (num_replicas : Nat) : Bool :=
  !(it.replicas.filter (fun r => !r.valid)).isEmpty ||
    (it.replicas.filter (·.valid)).length > num_replicas

/-- Modelled from the spec: `trimmable_replicas` from
`npg_irods.metadata.common` (not under `src/`): "returns the partition
(valid-excess-to-trim, invalid-to-trim)" (spec §4.1); the valid excess is
what remains beyond the first `n` valid replicas. -/
def trimmable_replicas (it : ChkItem) (num_replicas : Nat) :
    List Replica × List Replica :=
  ((it.replicas.filter (·.valid)).drop num_replicas,
    it.replicas.filter (fun r => !r.valid))

/-- Modelled from the spec: `DataObject.trim_replicas(valid=, invalid=)`,
a delegated mutation of the external client (spec §4.4 Repair: "each trim
being a separate delegated mutation that returns counts of replicas
removed").  Trimming valid replicas removes the excess beyond the expected
count; trimming invalid replicas removes them all.  Returns the counts of
(valid, invalid) replicas removed and the post-trim item. -/
def trim_replicas (it : ChkItem) (num_replicas : Nat)
    (valid invalid : Bool) : (Nat × Nat) × ChkItem :=
  let vs := it.replicas.filter (·.valid)
  let ivs := it.replicas.filter (fun r => !r.valid)
  let vKept := if valid then vs.take num_replicas else vs
  let iKept := if invalid then [] else ivs
  (((vs.length - vKept.length), (ivs.length - iKept.length)),
    { it with replicas := vKept ++ iKept })

/-- A record of one delegated trim call, in call order: the pair of the
`valid` and `invalid` keyword flags passed to `trim_replicas`. -/
structure TrimCall where
  valid : Bool
  invalid : Bool
deriving DecidableEq, Repr

/-- Per-item worker of `repair_replicas` (utilities.py lines 359-415).
If the item has trimmable replicas: trim the excess valid replicas first
(when there are any), then all invalid replicas (when there are any), each
as a separate delegated `trim_replicas` mutation, and then report
`repair = success = True` unconditionally.  If nothing is trimmable,
success with no repair.  Exceptions yield `(false, false)`.  Also returns
the trace of delegated trim calls and the post-repair item state. -/
def repairReplicasFn (num_replicas : Nat) :
    Fetch ChkItem → (Bool × Bool) × List TrimCall × Option ChkItem
  | Fetch.err => ((false, false), [], none)
  | Fetch.ok it =>
    let trim := has_trimmable_replicas it num_replicas
    if trim then
      match trimmable_replicas it num_replicas with
      | (validExcess, invalid) =>
        let step1 :=
          if !validExcess.isEmpty then
            (trim_replicas it num_replicas true false).2
          else it
        let step2 :=
          if !invalid.isEmpty then
            (trim_replicas step1 num_replicas false true).2
          else step1
        let trace :=
          (if !validExcess.isEmpty then [TrimCall.mk true false] else []) ++
            (if !invalid.isEmpty then [TrimCall.mk false true] else [])
        ((true, true), trace, some step2)
    else
      ((true, false), [], some it)

/-- Snapshot of an item's state for the common-metadata reconcilers.  The
predicates `has_common_metadata` and `ensure_common_metadata` live in
`npg_irods.metadata.common` (not under `src/`) and the claims treat them
as opaque, so the snapshot records their outcomes: whether the common
metadata is complete, and the result of the delegated ensure operation
(`Except.error` standing for an exception it raises, `Except.ok b` for a
normal return of the boolean `b`, which reports whether a write was
performed). -/
structure MetaItem where
  hasCommonMetadata : Bool
  ensureResult : Except Unit Bool
deriving Repr

/-- Per-item worker of `check_common_metadata` (utilities.py lines
446-483).  The `has_common_metadata` test selects only which log/print
branch runs; `success = True` is assigned after the conditional, so any
item processed without an exception reports success. -/
def checkCommonMetadataFn : Fetch MetaItem → Bool
  | Fetch.err => false
  | Fetch.ok _ => true

/-- Per-item worker of `repair_common_metadata` (utilities.py lines
528-560), as written in the source: `success = True` is assigned inside
the `if not has_common_metadata(obj)` block, after the delegated
`ensure_common_metadata` call (whose boolean result only selects whether
the repaired path is printed).  Consequently an item whose common metadata
is already complete leaves `success` at its initial `False`, and an
exception raised by the ensure call is caught, also leaving `False`. -/
def repairCommonMetadataFn : Fetch MetaItem → Bool
  | Fetch.err => false
  | Fetch.ok it =>
    if !it.hasCommonMetadata then
      match it.ensureResult with
      | Except.error _ => false
      | Except.ok _ => true
    else
      false

/-- The aggregate logic shared by `check_common_metadata` (utilities.py
lines 485-488) and `repair_common_metadata` (lines 562-565):
`all(starmap(fn, enumerate(reader)))`. -/
def allSucceeded (results : List Bool) : Bool :=
  results.all (· = true)

/-- What exists at a destination path in iRODS: a data object (with its
reported checksum and its replicas), a collection, or nothing (`none` in a
`World` lookup).  This is the information `rods_type`, `exists()`,
`checksum()` and `replicas()` read. -/
inductive WItem where
  | obj : String → List Replica → WItem
  | coll : WItem
deriving DecidableEq, Repr

/-- The destination side of the iRODS namespace: what is found at each
path (paths are segment lists). -/
def World : Type := List String → Option WItem

/-- The world after a path comes to hold an item (a collection created by
`Collection.create` or a data object written by `icp`). -/
def World.update (w : World) (p : List String) (x : WItem) : World :=
  fun q => if q = p then some x else w q

/-- Source-side snapshot of an existing iRODS item, as enumerated by the
`partisan` client: a data object with its name (path basename), reported
checksum and replicas, or a collection with its name and contents. -/
inductive SrcItem where
  | obj : String → String → List Replica → SrcItem
  | coll : String → List SrcItem → SrcItem
deriving Repr

/-- Errors `copy` can raise: `ChecksumError` (checksum inconsistency
detected by the engine itself), `RodsError` (typed storage error from an
external operation such as `icp` with non-zero exit status or a failing
`Collection.create`), and `ValueError` (invalid path-type combination).
Each carries the static part of the source's message. -/
inductive CopyErr where
  | checksum : String → CopyErr
  | rods : String → CopyErr
  | value : String → CopyErr
deriving DecidableEq, Repr

/-- Oracle for the external `_icp` primitive (utilities.py lines 765-782),
keyed by the destination path: `Except.error msg` when the `icp` command
exits non-zero (the source then raises `RodsError(stderr, 0)`), and
`Except.ok rs` on success, `rs` being the replicas the server creates for
the new object.  Since `_icp` is invoked with `verify_checksum=True`
(`icp -K`), a successful copy leaves an object whose reported checksum is
the source's. -/
def IcpOracle : Type := List String → Except String (List Replica)

/-- `copy._maybe_copy_obj` (utilities.py lines 602-634).  When `exist_ok`
is set and a data object already exists at the destination: raise
`ChecksumError` if the source and destination checksums differ, or if the
source's replicas do not match among themselves, or if the destination's
do not; otherwise skip the copy and return 0 copied.  In every other case
run the verified remote copy `_icp(str(s), str(d), verify_checksum=True)`
and return 1 copied. -/
def maybe_copy_obj (icp : IcpOracle) (exist_ok : Bool)
    (srcChecksum : String) (srcReplicas : List Replica)
    (w : World) (destPath : List String) : Except CopyErr (World × Nat) :=
  match exist_ok, w destPath with
  | true, some (WItem.obj destChecksum destReplicas) =>
    if srcChecksum != destChecksum then
      Except.error (CopyErr.checksum
        "A data object with a different checksum exists at the destination")
    else if !has_matching_checksums srcReplicas then
      Except.error (CopyErr.checksum
        "The source data object does not have matching checksums")
    else if !has_matching_checksums destReplicas then
      Except.error (CopyErr.checksum
        "The destination data object does not have matching checksums")
    else
      Except.ok (w, 0)
  | _, _ =>
    match icp destPath with
    | Except.error msg => Except.error (CopyErr.rods msg)
    | Except.ok rs =>
      Except.ok (World.update w destPath (WItem.obj srcChecksum rs), 1)

/-- `copy._maybe_copy_coll` (utilities.py lines 636-648).  When `exist_ok`
is set and a collection already exists at the destination, skip (0
copied); otherwise `Collection.create(exist_ok=exist_ok)` (external: it
fails with a storage error when the path is already occupied and
`exist_ok` does not excuse it) and return 1 copied. -/
def maybe_copy_coll (exist_ok : Bool) (w : World) (collPath : List String) :
    Except CopyErr (World × Nat) :=
  match exist_ok, w collPath with
  | true, some WItem.coll => Except.ok (w, 0)
  | _, _ =>
    match w collPath with
    | none => Except.ok (World.update w collPath WItem.coll, 1)
    | some WItem.coll =>
      if exist_ok then Except.ok (w, 1)
      else Except.error (CopyErr.rods "collection already exists")
    | some (WItem.obj _ _) =>
      Except.error (CopyErr.rods "a data object exists at the path")

mutual

/-- The dispatch and per-item work of `copy` (utilities.py lines 650-704)
for an existing source item.  The destination kind is `w destPath`
(`dest.rods_type`).  Metadata/permission propagation (`_cp_avu_acl`) adds
AVUs/permissions externally and affects neither the counts nor the world
model, so it is not tracked.  Returns the updated world and the
`(num_processed, num_copied)` counts. -/
def copyItem (icp : IcpOracle) (src : SrcItem) (w : World)
    (destPath : List String) (acl avu exist_ok recurse : Bool) :
    Except CopyErr (World × Nat × Nat) :=
  match src, w destPath with
  | SrcItem.coll _ _, some (WItem.obj _ _) =>
    -- case (Collection, DataObject)
    Except.error (CopyErr.value
      "Cannot copy a collection into a data object")
  | SrcItem.coll name contents, _ =>
    -- case (Collection, Collection) | (Collection, None)
    match maybe_copy_coll exist_ok w (destPath ++ [name]) with
    | Except.error e => Except.error e
    | Except.ok (w1, nc) =>
      if recurse then
        match copyList icp contents w1 (destPath ++ [name])
            acl avu exist_ok with
        | Except.error e => Except.error e
        | Except.ok (w2, np2, nc2) => Except.ok (w2, 1 + np2, nc + nc2)
      else
        Except.ok (w1, 1, nc)
  | SrcItem.obj name srcChecksum srcReplicas, d =>
    -- cases (DataObject, DataObject) | (DataObject, None) copy to the
    -- destination path itself; case (DataObject, Collection) copies into
    -- the collection under the source's basename
    let targetPath :=
      match d with
      | some WItem.coll => destPath ++ [name]
      | _ => destPath
    match maybe_copy_obj icp exist_ok srcChecksum srcReplicas w
        targetPath with
    | Except.error e => Except.error e
    | Except.ok (w1, nc) => Except.ok (w1, 1, nc)

/-- The `for item in src.contents()` recursion of `copy` (utilities.py
lines 670-681): each child is copied into the new collection with the same
flags and `recurse=True`, and the counts are accumulated. -/
def copyList (icp : IcpOracle) (items : List SrcItem) (w : World)
    (destPath : List String) (acl avu exist_ok : Bool) :
    Except CopyErr (World × Nat × Nat) :=
  match items with
  | [] => Except.ok (w, 0, 0)
  | t :: ts =>
    match copyItem icp t w destPath acl avu exist_ok true with
    | Except.error e => Except.error e
    | Except.ok (w1, np, nc) =>
      match copyList icp ts w1 destPath acl avu exist_ok with
      | Except.error e => Except.error e
      | Except.ok (w2, np2, nc2) => Except.ok (w2, np + np2, nc + nc2)

end

/-- `copy` (utilities.py lines 568-704).  A source whose path holds
nothing has `rods_type` `None` and falls to the catch-all dispatch arm,
which raises `ValueError`; an existing source is handled by `copyItem`. -/
def copy (icp : IcpOracle) (src : Option SrcItem) (w : World)
    (destPath : List String) (acl avu exist_ok recurse : Bool) :
    Except CopyErr (World × Nat × Nat) :=
  match src with
  | none => Except.error (CopyErr.value "Invalid iRODS path type combination")
  | some s => copyItem icp s w destPath acl avu exist_ok recurse

/-- A tree of iRODS items as seen through the `partisan` client by the
safe-removal planner: a data object leaf or a collection with its
contents.  Nodes carry their names; full paths are segment lists built by
the traversal. -/
inductive RodsTree where
  | obj : String → RodsTree
  | coll : String → List RodsTree → RodsTree
deriving Repr

mutual

/-- One step of `target.iter_contents(recurse=True)` (external `partisan`
traversal, spec §4.7 "walk the tree"): the item itself followed, for a
collection, by its contents, each entry as `(full path, is-collection)`. -/
def iterTree (parent : List String) (t : RodsTree) :
    List (List String × Bool) :=
  match t with
  | RodsTree.obj name => [(parent ++ [name], false)]
  | RodsTree.coll name contents =>
    (parent ++ [name], true) :: iterList (parent ++ [name]) contents

/-- `iter_contents(recurse=True)` over a list of sibling items, in
pre-order. -/
def iterList (parent : List String) (ts : List RodsTree) :
    List (List String × Bool) :=
  match ts with
  | [] => []
  | t :: ts' => iterTree parent t ++ iterList parent ts'

end

/-- Lexicographic comparison of paths as segment lists, mirroring the
lexical path order under which Python's `collections.sort(reverse=True)`
sorts the collected collections (spec §4.7: "a collection path sorted in
reverse lexical order always places deeper paths before shallower
prefixes"). -/
def pathLe : List String → List String → Bool
  | [], _ => true
  | _ :: _, [] => false
  | a :: as, b :: bs => decide (a < b) || (decide (a = b) && pathLe as bs)

/-- Insert a path into a list kept in decreasing `pathLe` order. -/
def insertDesc (x : List String) : List (List String) → List (List String)
  | [] => [x]
  | y :: ys => if pathLe x y then y :: insertDesc x ys else x :: y :: ys

/-- `collections.sort(reverse=True)`: sort paths in decreasing lexical
order. -/
def sortDesc (l : List (List String)) : List (List String) :=
  l.foldr insertDesc []

/-- The kind of removal command emitted by the planner: `irm` for data
objects, `irmdir` for collections. -/
inductive RCmd where
  | irm : RCmd
  | irmdir : RCmd
deriving DecidableEq, Repr

/-- `write_safe_remove_commands` (utilities.py lines 707-734), as the list
of `(command, path)` lines it prints.  A data object target yields a
single `irm`.  For a collection target, the recursive traversal prints an
`irm` for each data object as encountered and collects every descendant
collection; the collected collections are then sorted in reverse order and
printed as `irmdir` commands, finishing with the target's own `irmdir`. -/
def write_safe_remove_commands (rootPath : List String) (target : RodsTree) :
    List (RCmd × List String) :=
  match target with
  | RodsTree.obj _ => [(RCmd.irm, rootPath)]
  | RodsTree.coll _ contents =>
    let items := iterList rootPath contents
    let objs := (items.filter (fun e => !e.2)).map Prod.fst
    let colls := (items.filter (fun e => e.2)).map Prod.fst
    objs.map (fun p => (RCmd.irm, p)) ++
      (sortDesc colls).map (fun p => (RCmd.irmdir, p)) ++
      [(RCmd.irmdir, rootPath)]

/-! Helper lemmas about the lexical path order and the descending sort
used by the safe-removal planner. -/

theorem pathLe_total (a b : List String) :
    pathLe a b = true ∨ pathLe b a = true := by
  induction a generalizing b with
  | nil => left; rfl
  | cons x xs ih =>
    cases b with
    | nil => right; rfl
    | cons y ys =>
      rcases lt_trichotomy x y with hxy | hxy | hxy
      · left; simp [pathLe, hxy]
      · subst hxy
        rcases ih ys with h | h
        · left; simp [pathLe, h]
        · right; simp [pathLe, h]
      · right; simp [pathLe, hxy]

theorem pathLe_trans (a b c : List String) (hab : pathLe a b = true)
    (hbc : pathLe b c = true) : pathLe a c = true := by
  induction a generalizing b c with
  | nil => rfl
  | cons x xs ih =>
    cases b with
    | nil => simp [pathLe] at hab
    | cons y ys =>
      cases c with
      | nil => simp [pathLe] at hbc
      | cons z zs =>
        simp only [pathLe, Bool.or_eq_true, Bool.and_eq_true,
          decide_eq_true_eq] at hab hbc ⊢
        rcases hab with hab | ⟨hab, hab'⟩
        · rcases hbc with hbc | ⟨hbc, _⟩
          · exact Or.inl (lt_trans hab hbc)
          · exact Or.inl (hbc ▸ hab)
        · subst hab
          rcases hbc with hbc | ⟨hbc, hbc'⟩
          · exact Or.inl hbc
          · exact Or.inr ⟨hbc, ih ys zs hab' hbc'⟩

theorem pathLe_append (p s : List String) : pathLe p (p ++ s) = true := by
  induction p with
  | nil => rfl
  | cons x xs ih => simp [pathLe, ih]

theorem pathLe_append_left (p s : List String) (hs : s ≠ []) :
    pathLe (p ++ s) p = false := by
  induction p with
  | nil =>
    cases s with
    | nil => exact absurd rfl hs
    | cons y ys => rfl
  | cons x xs ih => simp [pathLe, ih]

theorem mem_insertDesc (a x : List String) (l : List (List String)) :
    a ∈ insertDesc x l ↔ a = x ∨ a ∈ l := by
  induction l with
  | nil => simp [insertDesc]
  | cons y ys ih =>
    cases hxy : pathLe x y with
    | true =>
      simp only [insertDesc, hxy, if_true, List.mem_cons, ih]
      tauto
    | false =>
      simp only [insertDesc, hxy, Bool.false_eq_true, if_false,
        List.mem_cons]

theorem mem_sortDesc (a : List String) (l : List (List String)) :
    a ∈ sortDesc l ↔ a ∈ l := by
  induction l with
  | nil => simp [sortDesc]
  | cons y ys ih =>
    simp only [sortDesc, List.foldr_cons]
    rw [show List.foldr insertDesc [] ys = sortDesc ys from rfl] at *
    rw [mem_insertDesc, ih, List.mem_cons]

theorem pairwise_insertDesc (x : List String) (l : List (List String))
    (h : l.Pairwise (fun a b => pathLe b a = true)) :
    (insertDesc x l).Pairwise (fun a b => pathLe b a = true) := by
  induction l with
  | nil => simp [insertDesc]
  | cons y ys ih =>
    rw [List.pairwise_cons] at h
    obtain ⟨hy, hys⟩ := h
    cases hxy : pathLe x y with
    | true =>
      simp only [insertDesc, hxy, if_true]
      rw [List.pairwise_cons]
      refine ⟨?_, ih hys⟩
      intro b hb
      rcases (mem_insertDesc b x ys).1 hb with hbx | hbm
      · exact hbx ▸ hxy
      · exact hy b hbm
    | false =>
      simp only [insertDesc, hxy, Bool.false_eq_true, if_false]
      have hyx : pathLe y x = true := by
        rcases pathLe_total x y with h' | h'
        · rw [h'] at hxy; exact absurd hxy (by simp)
        · exact h'
      rw [List.pairwise_cons]
      refine ⟨?_, by rw [List.pairwise_cons]; exact ⟨hy, hys⟩⟩
      intro b hb
      rcases List.mem_cons.1 hb with hby | hbm
      · exact hby ▸ hyx
      · exact pathLe_trans b y x (hy b hbm) hyx

theorem pairwise_sortDesc (l : List (List String)) :
    (sortDesc l).Pairwise (fun a b => pathLe b a = true) := by
  induction l with
  | nil => simp [sortDesc]
  | cons y ys ih => exact pairwise_insertDesc y (sortDesc ys) ih

mutual

/-- Every entry produced by the recursive traversal of one item lies
strictly below the parent: its path is the parent path extended by a
non-empty suffix. -/
theorem iterTree_below (t : RodsTree) (parent p : List String) (k : Bool)
    (h : (p, k) ∈ iterTree parent t) : ∃ s, s ≠ [] ∧ p = parent ++ s := by
  cases t with
  | obj n =>
    simp only [iterTree, List.mem_singleton, Prod.mk.injEq] at h
    exact ⟨[n], by simp, h.1⟩
  | coll n cs =>
    simp only [iterTree, List.mem_cons, Prod.mk.injEq] at h
    rcases h with ⟨h1, _⟩ | h2
    · exact ⟨[n], by simp, h1⟩
    · obtain ⟨s, hs, hp⟩ := iterList_below cs (parent ++ [n]) p k h2
      exact ⟨[n] ++ s, by simp, by simp [hp]⟩

/-- Every entry produced by the recursive traversal of a list of sibling
items lies strictly below the parent. -/
theorem iterList_below (ts : List RodsTree) (parent p : List String)
    (k : Bool) (h : (p, k) ∈ iterList parent ts) :
    ∃ s, s ≠ [] ∧ p = parent ++ s := by
  cases ts with
  | nil => simp [iterList] at h
  | cons t ts' =>
    simp only [iterList, List.mem_append] at h
    rcases h with h1 | h2
    · exact iterTree_below t parent p k h1
    · exact iterList_below ts' parent p k h2

end

theorem pairwise_of_irm (R : RCmd × List String → RCmd × List String → Prop)
    (l : List (RCmd × List String)) (h : ∀ a ∈ l, ∀ b, R a b) :
    l.Pairwise R := by
  induction l with
  | nil => exact List.Pairwise.nil
  | cons x xs ih =>
    exact List.Pairwise.cons (fun b _ => h x (List.mem_cons_self x xs) b)
      (ih fun a ha b => h a (List.mem_cons_of_mem x ha) b)

/-- C1: for every tree rooted at a collection, the removal plan produced
by `write_safe_remove_commands` emits an `irm` command for every data
object and an `irmdir` command for every collection, every collection's
removal command appears strictly after the removal commands of all items
transitively beneath it, and the root's own removal command is last.
"Beneath" is captured by paths: the traversal assigns every item beneath a
collection a path that extends the collection's path by a non-empty
suffix (second conjunct), and the plan's `Pairwise` invariant says that
once an `irmdir` for a path `c` has been emitted, no later command's path
extends `c` — equivalently, the removal of everything strictly beneath a
collection precedes the collection's own removal. -/
theorem C1_safe_remove_plan_ordered (rootPath : List String) (name : String)
    (contents : List RodsTree) (plan : List (RCmd × List String))
    (hplan : plan =
      write_safe_remove_commands rootPath (RodsTree.coll name contents)) :
    (∀ p, (p, false) ∈ iterList rootPath contents → (RCmd.irm, p) ∈ plan) ∧
    (∀ p, (p, true) ∈ iterList rootPath contents → (RCmd.irmdir, p) ∈ plan) ∧
    (RCmd.irmdir, rootPath) ∈ plan ∧
    (∀ p k, (p, k) ∈ iterList rootPath contents →
      ∃ s, s ≠ [] ∧ p = rootPath ++ s) ∧
    plan.Pairwise
      (fun a b => a.1 = RCmd.irmdir → ∀ s, s ≠ [] → b.2 ≠ a.2 ++ s) ∧
    plan.getLast? = some (RCmd.irmdir, rootPath) := by
  subst hplan
  simp only [write_safe_remove_commands]
  set items := iterList rootPath contents with hitems
  set objs := (items.filter (fun e => !e.2)).map Prod.fst with hobjs
  set colls := (items.filter (fun e => e.2)).map Prod.fst with hcolls
  have coll_below : ∀ c ∈ sortDesc colls, ∃ s, s ≠ [] ∧ c = rootPath ++ s := by
    intro c hc
    rw [mem_sortDesc] at hc
    rw [hcolls] at hc
    obtain ⟨⟨p', k'⟩, hmem, hfst⟩ := List.mem_map.1 hc
    rw [List.mem_filter] at hmem
    cases hfst
    exact iterList_below contents rootPath p' k' hmem.1
  have objs_irm : ∀ a ∈ objs.map (fun p => (RCmd.irm, p)), a.1 = RCmd.irm := by
    intro a ha
    obtain ⟨p', _, hpa⟩ := List.mem_map.1 ha
    rw [← hpa]
  have sorted_irmdir_below :
      ∀ a ∈ (sortDesc colls).map (fun p => (RCmd.irmdir, p)),
        ∃ s, s ≠ [] ∧ a.2 = rootPath ++ s := by
    intro a ha
    obtain ⟨c, hc, hac⟩ := List.mem_map.1 ha
    obtain ⟨t, ht, hct⟩ := coll_below c hc
    exact ⟨t, ht, by rw [← hac]; exact hct⟩
  refine ⟨?_, ?_, ?_, ?_, ?_, ?_⟩
  · -- every data object yields an irm command
    intro p hp
    refine List.mem_append_left _ (List.mem_append_left _
      (List.mem_map.2 ⟨p, ?_, rfl⟩))
    rw [hobjs]
    exact List.mem_map.2 ⟨(p, false), List.mem_filter.2 ⟨hp, rfl⟩, rfl⟩
  · -- every descendant collection yields an irmdir command
    intro p hp
    refine List.mem_append_left _ (List.mem_append_right _ ?_)
    refine List.mem_map.2 ⟨p, ?_, rfl⟩
    rw [mem_sortDesc, hcolls]
    exact List.mem_map.2 ⟨(p, true), List.mem_filter.2 ⟨hp, rfl⟩, rfl⟩
  · -- the root collection yields an irmdir command
    exact List.mem_append_right _ (List.mem_singleton.2 rfl)
  · -- every item of the tree lies strictly below the root
    intro p k hp
    exact iterList_below contents rootPath p k hp
  · -- ordering invariant
    rw [List.pairwise_append]
    refine ⟨?_, List.pairwise_singleton _ _, ?_⟩
    · rw [List.pairwise_append]
      refine ⟨?_, ?_, ?_⟩
      · -- the irm block: its entries are not irmdir commands
        refine pairwise_of_irm _ _ ?_
        intro a ha b hcmd
        rw [objs_irm a ha] at hcmd
        exact absurd hcmd (by simp)
      · -- within the sorted irmdir block: descending order means no
        -- later entry lies beneath an earlier one
        rw [List.pairwise_map]
        refine (pairwise_sortDesc colls).imp ?_
        intro c d hle _ s hs heq
        change d = c ++ s at heq
        rw [heq] at hle
        rw [pathLe_append_left c s hs] at hle
        exact absurd hle (by simp)
      · -- the irm block precedes every irmdir entry vacuously
        intro a ha b _ hcmd
        rw [objs_irm a ha] at hcmd
        exact absurd hcmd (by simp)
    · -- nothing in the body of the plan lies above the root entry
      intro a ha b hb
      rw [List.mem_singleton] at hb
      rcases List.mem_append.1 ha with hao | hac
      · intro hcmd
        rw [objs_irm a hao] at hcmd
        exact absurd hcmd (by simp)
      · intro _ s hs heq
        obtain ⟨t, ht, hct⟩ := sorted_irmdir_below a hac
        rw [hb] at heq
        simp only at heq
        have hlen := congrArg List.length heq
        rw [hct] at hlen
        simp only [List.length_append] at hlen
        have ht1 : 0 < t.length := List.length_pos.2 ht
        have hs1 : 0 < s.length := List.length_pos.2 hs
        omega
  · -- the root's removal command is last
    exact List.getLast?_concat _

/-- Witness for C1 at the spec's example tree `root/ {a(obj), b/ {c(obj)}}`:
the object `a` gets an `irm` command and the plan ends with the root's
`irmdir`. -/
theorem C1_safe_remove_plan_ordered_witness :
    (RCmd.irm, ["root", "a"]) ∈
      write_safe_remove_commands ["root"]
        (RodsTree.coll "root"
          [RodsTree.obj "a", RodsTree.coll "b" [RodsTree.obj "c"]]) ∧
    (write_safe_remove_commands ["root"]
        (RodsTree.coll "root"
          [RodsTree.obj "a", RodsTree.coll "b" [RodsTree.obj "c"]])).getLast? =
      some (RCmd.irmdir, ["root"]) := by
  have h := C1_safe_remove_plan_ordered ["root"] "root"
    [RodsTree.obj "a", RodsTree.coll "b" [RodsTree.obj "c"]]
    (write_safe_remove_commands ["root"]
      (RodsTree.coll "root"
        [RodsTree.obj "a", RodsTree.coll "b" [RodsTree.obj "c"]])) rfl
  exact ⟨h.1 ["root", "a"] (by simp [iterList, iterTree]), h.2.2.2.2.2⟩

/-- C9: copying a collection into an existing data object always raises
`ValueError` (the invalid-combination error), for any contents, any flags
and any external-copy behaviour; the error is returned to the caller (the
dispatch raises before any external operation runs). -/
theorem C9_collection_into_object_raises (icp : IcpOracle) (name : String)
    (contents : List SrcItem) (w : World) (destPath : List String)
    (dcs : String) (drs : List Replica) (acl avu exist_ok recurse : Bool)
    (h : w destPath = some (WItem.obj dcs drs)) :
    copy icp (some (SrcItem.coll name contents)) w destPath
        acl avu exist_ok recurse =
      Except.error (CopyErr.value
        "Cannot copy a collection into a data object") := by
  show copyItem icp (SrcItem.coll name contents) w destPath
      acl avu exist_ok recurse =
    Except.error (CopyErr.value "Cannot copy a collection into a data object")
  rw [copyItem.eq_def, h]

/-- Witness for C9 at a concrete world and collection. -/
theorem C9_collection_into_object_raises_witness :
    copy (fun _ => Except.error "unreached")
        (some (SrcItem.coll "c" [SrcItem.obj "f" "a" []]))
        (fun p => if p = ["d"] then some (WItem.obj "x" []) else none)
        ["d"] false false true true =
      Except.error (CopyErr.value
        "Cannot copy a collection into a data object") :=
  C9_collection_into_object_raises (fun _ => Except.error "unreached")
    "c" [SrcItem.obj "f" "a" []]
    (fun p => if p = ["d"] then some (WItem.obj "x" []) else none)
    ["d"] "x" [] false false true true (by simp)

/-- C2: for a data-object copy with `exist_ok=true` whose destination
already exists, `copy` raises `ChecksumError` precisely when the source
and destination checksums differ, or the source's own replicas disagree,
or the destination's own replicas disagree; otherwise the copy is skipped
and the call returns `(processed, copied) = (1, 0)` with the world
untouched, so a second copy of an identical object is a no-op. -/
theorem C2_copy_exist_ok_idempotent (icp : IcpOracle) (name scs : String)
    (srs : List Replica) (w : World) (destPath : List String)
    (dcs : String) (drs : List Replica) (acl avu recurse : Bool)
    (h : w destPath = some (WItem.obj dcs drs)) :
    ((∃ m, copy icp (some (SrcItem.obj name scs srs)) w destPath
        acl avu true recurse = Except.error (CopyErr.checksum m)) ↔
      (scs ≠ dcs ∨ has_matching_checksums srs = false ∨
        has_matching_checksums drs = false)) ∧
    (scs = dcs → has_matching_checksums srs = true →
      has_matching_checksums drs = true →
      copy icp (some (SrcItem.obj name scs srs)) w destPath
        acl avu true recurse = Except.ok (w, 1, 0)) := by
  have hcopy : copy icp (some (SrcItem.obj name scs srs)) w destPath
      acl avu true recurse =
      match maybe_copy_obj icp true scs srs w destPath with
      | Except.error e => Except.error e
      | Except.ok (w1, nc) => Except.ok (w1, 1, nc) := by
    show copyItem icp (SrcItem.obj name scs srs) w destPath
        acl avu true recurse = _
    rw [copyItem.eq_def, h]
  have hm : maybe_copy_obj icp true scs srs w destPath =
      if scs != dcs then
        Except.error (CopyErr.checksum
          "A data object with a different checksum exists at the destination")
      else if !has_matching_checksums srs then
        Except.error (CopyErr.checksum
          "The source data object does not have matching checksums")
      else if !has_matching_checksums drs then
        Except.error (CopyErr.checksum
          "The destination data object does not have matching checksums")
      else Except.ok (w, 0) := by
    unfold maybe_copy_obj
    rw [h]
  rw [hm] at hcopy
  by_cases heq : scs = dcs
  · have hb : (scs != dcs) = false := by simp [heq]
    rw [hb] at hcopy
    simp only [Bool.false_eq_true, if_false] at hcopy
    cases hs : has_matching_checksums srs with
    | false =>
      rw [hs] at hcopy
      simp only [Bool.not_false, if_true] at hcopy
      refine ⟨⟨fun _ => Or.inr (Or.inl rfl), fun _ => ⟨_, hcopy⟩⟩, ?_⟩
      intro _ hff _
      exact absurd hff (by simp)
    | true =>
      rw [hs] at hcopy
      simp only [Bool.not_true, Bool.false_eq_true, if_false] at hcopy
      cases hd : has_matching_checksums drs with
      | false =>
        rw [hd] at hcopy
        simp only [Bool.not_false, if_true] at hcopy
        refine ⟨⟨fun _ => Or.inr (Or.inr rfl), fun _ => ⟨_, hcopy⟩⟩, ?_⟩
        intro _ _ hff
        exact absurd hff (by simp)
      | true =>
        rw [hd] at hcopy
        simp only [Bool.not_true, Bool.false_eq_true, if_false] at hcopy
        refine ⟨⟨?_, ?_⟩, fun _ _ _ => hcopy⟩
        · rintro ⟨m, hc⟩
          have hval := hc.symm.trans hcopy
          exact absurd hval (by simp)
        · rintro (hc | hc | hc)
          · exact absurd heq hc
          · exact absurd hc (by simp)
          · exact absurd hc (by simp)
  · have hb : (scs != dcs) = true := bne_iff_ne.2 heq
    rw [hb] at hcopy
    simp only [if_true] at hcopy
    refine ⟨⟨fun _ => Or.inl heq, fun _ => ⟨_, hcopy⟩⟩, ?_⟩
    intro heq'
    exact absurd heq' heq

/-- Witness for C2: a second copy of an object with checksum `"a"` and a
single agreeing replica onto an identical existing destination object is
skipped with `(processed, copied) = (1, 0)` and raises nothing. -/
theorem C2_copy_exist_ok_idempotent_witness :
    copy (fun _ => Except.error "unreached")
        (some (SrcItem.obj "f" "a" [Replica.mk (some "a") true]))
        (fun p => if p = ["dst", "f"] then
          some (WItem.obj "a" [Replica.mk (some "a") true]) else none)
        ["dst", "f"] false false true false =
      Except.ok ((fun p => if p = ["dst", "f"] then
        some (WItem.obj "a" [Replica.mk (some "a") true]) else none), 1, 0) :=
  (C2_copy_exist_ok_idempotent (fun _ => Except.error "unreached") "f" "a"
    [Replica.mk (some "a") true]
    (fun p => if p = ["dst", "f"] then
      some (WItem.obj "a" [Replica.mk (some "a") true]) else none)
    ["dst", "f"] "a" [Replica.mk (some "a") true] false false false
    (by simp)).2 rfl (by decide) (by decide)

/-- C10: with `exist_ok=false` the object-copy path performs no
destination-existence check and no checksum comparison: even with a
pre-existing destination object the verified remote-copy primitive is
invoked unconditionally, so a pre-existing destination surfaces as the
primitive's typed storage error (`RodsError` from its non-zero exit
status) and never as an engine-raised `ChecksumError`. -/
theorem C10_copy_no_exist_ok_check (icp : IcpOracle) (name scs : String)
    (srs : List Replica) (w : World) (destPath : List String)
    (dcs : String) (drs : List Replica) (acl avu recurse : Bool)
    (h : w destPath = some (WItem.obj dcs drs)) :
    copy icp (some (SrcItem.obj name scs srs)) w destPath
        acl avu false recurse =
      (match icp destPath with
       | Except.error m => Except.error (CopyErr.rods m)
       | Except.ok rs =>
         Except.ok (World.update w destPath (WItem.obj scs rs), 1, 1)) ∧
    ∀ m, copy icp (some (SrcItem.obj name scs srs)) w destPath
        acl avu false recurse ≠ Except.error (CopyErr.checksum m) := by
  have hcopy : copy icp (some (SrcItem.obj name scs srs)) w destPath
      acl avu false recurse =
      match maybe_copy_obj icp false scs srs w destPath with
      | Except.error e => Except.error e
      | Except.ok (w1, nc) => Except.ok (w1, 1, nc) := by
    show copyItem icp (SrcItem.obj name scs srs) w destPath
        acl avu false recurse = _
    rw [copyItem.eq_def, h]
  have hm : maybe_copy_obj icp false scs srs w destPath =
      match icp destPath with
      | Except.error msg => Except.error (CopyErr.rods msg)
      | Except.ok rs =>
        Except.ok (World.update w destPath (WItem.obj scs rs), 1) := rfl
  rw [hm] at hcopy
  cases hicp : icp destPath with
  | error msg =>
    rw [hicp] at hcopy
    have hval : copy icp (some (SrcItem.obj name scs srs)) w destPath
        acl avu false recurse = Except.error (CopyErr.rods msg) := hcopy
    refine ⟨?_, ?_⟩
    · exact hval
    · intro m hc
      have := hc.symm.trans hval
      exact absurd this (by simp)
  | ok rs =>
    rw [hicp] at hcopy
    have hval : copy icp (some (SrcItem.obj name scs srs)) w destPath
        acl avu false recurse =
        Except.ok (World.update w destPath (WItem.obj scs rs), 1, 1) := hcopy
    refine ⟨?_, ?_⟩
    · exact hval
    · intro m hc
      have := hc.symm.trans hval
      exact absurd this (by simp)

/-- Witness for C10: the destination exists, `icp` fails with non-zero
exit status, and the result is the typed storage error. -/
theorem C10_copy_no_exist_ok_check_witness :
    copy (fun _ => Except.error "destination exists")
        (some (SrcItem.obj "f" "a" [Replica.mk (some "a") true]))
        (fun p => if p = ["dst", "f"] then
          some (WItem.obj "b" [Replica.mk (some "b") true]) else none)
        ["dst", "f"] false false false false =
      Except.error (CopyErr.rods "destination exists") := by
  have h := C10_copy_no_exist_ok_check (fun _ => Except.error "destination exists")
    "f" "a" [Replica.mk (some "a") true]
    (fun p => if p = ["dst", "f"] then
      some (WItem.obj "b" [Replica.mk (some "b") true]) else none)
    ["dst", "f"] "b" [Replica.mk (some "b") true] false false false
    (by simp)
  exact h.1

/-- C3: evaluation of the `repair_common_metadata` worker as written.  The
claim (and the spec, the function's own docstring "True if all repairs
were done", and every sibling reconciler) expect an item whose common
metadata is already complete to report success with no repair; the code as
written assigns `success = True` only inside the
`if not has_common_metadata(obj)` branch, so a complete item reports
success = false.  The second and third conjuncts confirm the claim's other
half: for incomplete items, success is reported whenever the delegated
ensure operation does not raise, whatever boolean it returns. -/
theorem C3_repair_common_metadata_complete_item :
    repairCommonMetadataFn
      (Fetch.ok (MetaItem.mk true (Except.ok false))) = false ∧
    repairCommonMetadataFn
      (Fetch.ok (MetaItem.mk false (Except.ok false))) = true ∧
    repairCommonMetadataFn
      (Fetch.ok (MetaItem.mk false (Except.ok true))) = true ∧
    repairCommonMetadataFn
      (Fetch.ok (MetaItem.mk false (Except.error ()))) = false :=
  ⟨rfl, rfl, rfl, rfl⟩

/-- C4 counterexample: an item whose common metadata is incomplete
(`hasCommonMetadata` false) and whose processing raises no exception still
reports per-item success, refuting "success iff `hasCommonMetadata`". -/
theorem C4_check_common_metadata_counterexample :
    checkCommonMetadataFn
      (Fetch.ok (MetaItem.mk false (Except.ok false))) = true ∧
    (MetaItem.mk false (Except.ok false)).hasCommonMetadata = false :=
  ⟨rfl, rfl⟩

/-- C4 (amended): the per-item outcome of `check_common_metadata` is
success if and only if the item was processed without an exception; the
`has_common_metadata` test only selects which log/print branch runs and
does not affect the returned outcome. -/
theorem C4_check_common_metadata_success_iff_processed
    (f : Fetch MetaItem) :
    checkCommonMetadataFn f = true ↔ f ≠ Fetch.err := by
  cases f with
  | err => simp [checkCommonMetadataFn]
  | ok it => simp [checkCommonMetadataFn]

/-- C5: for an item whose valid replicas have divergent checksums, or one
of whose valid replicas lacks a checksum, `repair_checksums` reports
success = false and repaired = false and returns the item with its
checksum metadata unchanged (the delegated ensure operation refuses the
repair). -/
theorem C5_repair_checksums_refuses_divergent (it : ChkItem)
    (h : has_matching_checksums it.replicas = false ∨
      has_complete_checksums it.replicas = false) :
    repairChecksumsFn (Fetch.ok it) = ((false, false), some it) := by
  have hagreed : replica_agreed_checksum it = none := by
    rw [replica_agreed_checksum]
    cases hl : checksum_list it.replicas with
    | nil =>
      exfalso
      rcases h with h | h
      · rw [has_matching_checksums, hl] at h
        exact absurd h (by simp)
      · rw [has_complete_checksums, hl] at h
        exact absurd h (by simp)
    | cons c cs =>
      show (if cs.all (· == c) then c else none) = none
      rcases h with h | h
      · rw [has_matching_checksums, hl] at h
        have h' : cs.all (· == c) = false := h
        rw [h']
        simp
      · rw [has_complete_checksums, hl] at h
        cases hall : cs.all (· == c) with
        | false => simp
        | true =>
          simp only [if_true]
          cases hc : c with
          | none => rfl
          | some v =>
            exfalso
            rw [hc] at h hall
            have hcs : cs.all Option.isSome = true := by
              rw [List.all_eq_true]
              intro x hx
              have hxc := List.all_eq_true.1 hall x hx
              have hxv : x = some v := by simpa using hxc
              rw [hxv]
              rfl
            rw [List.all_cons, hcs] at h
            exact absurd h (by simp)
  have hmeta : has_matching_checksum_metadata it = false := by
    rw [has_matching_checksum_metadata, hagreed]
    simp
  simp only [repairChecksumsFn, hmeta, Bool.false_eq_true, if_false,
    ensure_matching_checksum_metadata, hagreed]

/-- Witness for C5: two valid replicas with divergent checksums `"a"` and
`"b"`; the repair is refused and the item is unchanged. -/
theorem C5_repair_checksums_refuses_divergent_witness :
    repairChecksumsFn (Fetch.ok (ChkItem.mk
        [Replica.mk (some "a") true, Replica.mk (some "b") true] ["a"])) =
      ((false, false), some (ChkItem.mk
        [Replica.mk (some "a") true, Replica.mk (some "b") true] ["a"])) :=
  C5_repair_checksums_refuses_divergent
    (ChkItem.mk [Replica.mk (some "a") true, Replica.mk (some "b") true] ["a"])
    (Or.inl (by decide))

/-- Witness for the amended C4 statement at a concrete item that was
processed without an exception. -/
theorem C4_check_common_metadata_success_iff_processed_witness :
    checkCommonMetadataFn
      (Fetch.ok (MetaItem.mk true (Except.ok false))) = true :=
  (C4_check_common_metadata_success_iff_processed
    (Fetch.ok (MetaItem.mk true (Except.ok false)))).2 (by simp)

/-- C6: `repair_replicas` policy.  For an item with trimmable replicas the
worker performs the delegated trims in order — excess valid replicas first
(only when there is an excess), then all invalid replicas (only when there
are any), as separate mutations — and reports success = repaired = true
unconditionally, regardless of the post-trim state (in particular of
`has_complete_replicas`); an item with nothing to trim reports success
with repaired = false and is unchanged.  The last conjunct is the spec's
concrete case: expected count 2, three valid and one invalid replica; the
invalid replica and one excess valid replica are trimmed, leaving exactly
two valid replicas, and the item is reported repaired. -/
theorem C6_repair_replicas_trim_policy (n : Nat) (it : ChkItem) :
    (has_trimmable_replicas it n = true →
      (repairReplicasFn n (Fetch.ok it)).1 = (true, true) ∧
      (repairReplicasFn n (Fetch.ok it)).2.1 =
        (if n < (it.replicas.filter (·.valid)).length
          then [TrimCall.mk true false] else []) ++
        (if 0 < (it.replicas.filter (fun r => !r.valid)).length
          then [TrimCall.mk false true] else [])) ∧
    (has_trimmable_replicas it n = false →
      repairReplicasFn n (Fetch.ok it) = ((true, false), [], some it)) ∧
    repairReplicasFn 2 (Fetch.ok (ChkItem.mk
        [Replica.mk (some "a") true, Replica.mk (some "a") true,
          Replica.mk (some "a") true, Replica.mk (some "b") false] [])) =
      ((true, true), [TrimCall.mk true false, TrimCall.mk false true],
        some (ChkItem.mk
          [Replica.mk (some "a") true, Replica.mk (some "a") true] [])) := by
  have hexcess : (!((it.replicas.filter (·.valid)).drop n).isEmpty) =
      decide (n < (it.replicas.filter (·.valid)).length) := by
    have hlen : ((it.replicas.filter (·.valid)).drop n).length =
        (it.replicas.filter (·.valid)).length - n := List.length_drop n _
    cases hd : (it.replicas.filter (·.valid)).drop n with
    | nil =>
      rw [hd] at hlen
      simp only [List.length_nil] at hlen
      have : ¬n < (it.replicas.filter (·.valid)).length := by omega
      simp [this]
    | cons a l =>
      rw [hd] at hlen
      simp only [List.length_cons] at hlen
      have : n < (it.replicas.filter (·.valid)).length := by omega
      simp [this]
  have hinv : (!(it.replicas.filter (fun r => !r.valid)).isEmpty) =
      decide (0 < (it.replicas.filter (fun r => !r.valid)).length) := by
    cases hi : it.replicas.filter (fun r => !r.valid) with
    | nil => simp
    | cons a l => simp
  refine ⟨?_, ?_, ?_⟩
  · intro h
    simp only [repairReplicasFn, h, if_true, trimmable_replicas]
    constructor
    · trivial
    · simp only [hexcess, hinv, decide_eq_true_eq]
  · intro h
    simp only [repairReplicasFn, h, Bool.false_eq_true, if_false]
  · decide

/-- Witness for C6 applying the general policy at the concrete
three-valid/one-invalid item with expected count 2. -/
theorem C6_repair_replicas_trim_policy_witness :
    (repairReplicasFn 2 (Fetch.ok (ChkItem.mk
        [Replica.mk (some "a") true, Replica.mk (some "a") true,
          Replica.mk (some "a") true, Replica.mk (some "b") false] []))).1 =
      (true, true) :=
  ((C6_repair_replicas_trim_policy 2 (ChkItem.mk
      [Replica.mk (some "a") true, Replica.mk (some "a") true,
        Replica.mk (some "a") true, Replica.mk (some "b") false] [])).1
    (by decide)).1

theorem count_true_map {α : Type} (g : α → Bool) (l : List α) :
    (l.map g).count true = l.countP g := by
  rw [List.count_eq_countP, List.countP_map]
  congr 1
  funext a
  simp [Function.comp]

/-- C7: `check_checksums` per-item success is exactly
`has_matching_checksum_metadata` (exceptions aside), items are never
mutated by the check, and the aggregate result is the triple
`(N, S, N - S)` where `N` is the number of input paths and `S` the number
of successful items, so total = success-count + error-count exactly. -/
theorem C7_check_checksums_driver (inputs : List (Fetch ChkItem)) :
    (∀ it, (checkChecksumsFn (Fetch.ok it)).1 = true ↔
      has_matching_checksum_metadata it = true) ∧
    (∀ it, (checkChecksumsFn (Fetch.ok it)).2 = some it) ∧
    (check_checksums inputs).1 = inputs.length ∧
    (check_checksums inputs).2.1 =
      (inputs.filter (fun f => (checkChecksumsFn f).1)).length ∧
    (check_checksums inputs).2.2 =
      inputs.length -
        (inputs.filter (fun f => (checkChecksumsFn f).1)).length ∧
    (check_checksums inputs).1 =
      (check_checksums inputs).2.1 + (check_checksums inputs).2.2 := by
  have htotal : (check_checksums inputs).1 = inputs.length := by
    show (inputs.map (fun f => (checkChecksumsFn f).1)).length = _
    rw [List.length_map]
  have hsucc : (check_checksums inputs).2.1 =
      (inputs.filter (fun f => (checkChecksumsFn f).1)).length := by
    show (inputs.map (fun f => (checkChecksumsFn f).1)).count true = _
    rw [count_true_map, List.countP_eq_length_filter]
  have herr : (check_checksums inputs).2.2 =
      inputs.length -
        (inputs.filter (fun f => (checkChecksumsFn f).1)).length := by
    show (inputs.map (fun f => (checkChecksumsFn f).1)).length -
        (inputs.map (fun f => (checkChecksumsFn f).1)).count true = _
    rw [List.length_map, count_true_map, List.countP_eq_length_filter]
  have hle : (inputs.filter (fun f => (checkChecksumsFn f).1)).length ≤
      inputs.length := List.length_filter_le _ _
  refine ⟨fun it => Iff.rfl, fun it => rfl, htotal, hsucc, herr, ?_⟩
  rw [htotal, hsucc, herr]
  omega

/-- C8: driver fault isolation.  An exception while processing one item
(`Fetch.err`, caught by the per-item `except` blocks) contributes exactly
one processed item and one error to the aggregate counts of
`check_checksums` and `repair_checksums`, and the items before and after
it are processed and counted exactly as they would be on their own.  The
final conjunct is the concrete five-path instance with the third item
raising a storage error: total 5, four successes, one error. -/
theorem C8_driver_fault_isolation (l1 l2 : List (Fetch ChkItem)) :
    check_checksums (l1 ++ Fetch.err :: l2) =
      ((check_checksums l1).1 + (check_checksums l2).1 + 1,
        (check_checksums l1).2.1 + (check_checksums l2).2.1,
        (check_checksums l1).2.2 + (check_checksums l2).2.2 + 1) ∧
    repair_checksums (l1 ++ Fetch.err :: l2) =
      ((repair_checksums l1).1 + (repair_checksums l2).1 + 1,
        (repair_checksums l1).2.1 + (repair_checksums l2).2.1,
        (repair_checksums l1).2.2 + (repair_checksums l2).2.2 + 1) ∧
    check_checksums
        [Fetch.ok (ChkItem.mk [Replica.mk (some "a") true] ["a"]),
          Fetch.ok (ChkItem.mk [Replica.mk (some "a") true] ["a"]),
          Fetch.err,
          Fetch.ok (ChkItem.mk [Replica.mk (some "a") true] ["a"]),
          Fetch.ok (ChkItem.mk [Replica.mk (some "a") true] ["a"])] =
      (5, 4, 1) := by
  have hc : ∀ l : List (Fetch ChkItem), check_checksums l =
      ((l.map (fun f => (checkChecksumsFn f).1)).length,
        (l.map (fun f => (checkChecksumsFn f).1)).count true,
        (l.map (fun f => (checkChecksumsFn f).1)).length -
          (l.map (fun f => (checkChecksumsFn f).1)).count true) :=
    fun l => rfl
  have hr : ∀ l : List (Fetch ChkItem), repair_checksums l =
      ((l.map (fun f => (repairChecksumsFn f).1)).length,
        ((l.map (fun f => (repairChecksumsFn f).1)).map Prod.snd).count true,
        (l.map (fun f => (repairChecksumsFn f).1)).length -
          ((l.map (fun f => (repairChecksumsFn f).1)).map Prod.fst).count
            true) :=
    fun l => rfl
  have hcnt : ∀ X Y : List Bool,
      (X ++ false :: Y).count true = X.count true + Y.count true := by
    intro X Y
    rw [List.count_append, List.count_cons]
    simp
  refine ⟨?_, ?_, by decide⟩
  · have hmapc : (l1 ++ Fetch.err :: l2).map
        (fun f => (checkChecksumsFn f).1) =
        l1.map (fun f => (checkChecksumsFn f).1) ++
          false :: l2.map (fun f => (checkChecksumsFn f).1) := by
      rw [List.map_append, List.map_cons]
      rfl
    rw [hc (l1 ++ Fetch.err :: l2), hc l1, hc l2, hmapc]
    set A := l1.map (fun f => (checkChecksumsFn f).1)
    set B := l2.map (fun f => (checkChecksumsFn f).1)
    have hs1 : A.count true ≤ A.length := List.count_le_length _ _
    have hs2 : B.count true ≤ B.length := List.count_le_length _ _
    have hcnt1 := hcnt A B
    have hlen : (A ++ false :: B).length = A.length + B.length + 1 := by
      simp only [List.length_append, List.length_cons]
      omega
    simp only [Prod.mk.injEq]
    refine ⟨by omega, by omega, by omega⟩
  · have hmapr : (l1 ++ Fetch.err :: l2).map
        (fun f => (repairChecksumsFn f).1) =
        l1.map (fun f => (repairChecksumsFn f).1) ++
          (false, false) :: l2.map (fun f => (repairChecksumsFn f).1) := by
      rw [List.map_append, List.map_cons]
      rfl
    rw [hr (l1 ++ Fetch.err :: l2), hr l1, hr l2, hmapr]
    set A := l1.map (fun f => (repairChecksumsFn f).1)
    set B := l2.map (fun f => (repairChecksumsFn f).1)
    have hmaps : (A ++ (false, false) :: B).map Prod.snd =
        A.map Prod.snd ++ false :: B.map Prod.snd := by
      rw [List.map_append, List.map_cons]
    have hmapf : (A ++ (false, false) :: B).map Prod.fst =
        A.map Prod.fst ++ false :: B.map Prod.fst := by
      rw [List.map_append, List.map_cons]
    have hs1 : (A.map Prod.fst).count true ≤ A.length := by
      have := List.count_le_length true (A.map Prod.fst)
      rwa [List.length_map] at this
    have hs2 : (B.map Prod.fst).count true ≤ B.length := by
      have := List.count_le_length true (B.map Prod.fst)
      rwa [List.length_map] at this
    have hcnts := hcnt (A.map Prod.snd) (B.map Prod.snd)
    have hcntf := hcnt (A.map Prod.fst) (B.map Prod.fst)
    have hlen : (A ++ (false, false) :: B).length =
        A.length + B.length + 1 := by
      simp only [List.length_append, List.length_cons]
      omega
    rw [hmaps, hmapf]
    simp only [Prod.mk.injEq]
    refine ⟨by omega, by omega, by omega⟩

/-- Witness for C7 at a concrete two-path input (one passing item, one
exception): total equals success-count plus error-count. -/
theorem C7_check_checksums_driver_witness :
    (check_checksums
        [Fetch.ok (ChkItem.mk [Replica.mk (some "a") true] ["a"]),
          Fetch.err]).1 =
      (check_checksums
        [Fetch.ok (ChkItem.mk [Replica.mk (some "a") true] ["a"]),
          Fetch.err]).2.1 +
      (check_checksums
        [Fetch.ok (ChkItem.mk [Replica.mk (some "a") true] ["a"]),
          Fetch.err]).2.2 :=
  (C7_check_checksums_driver
    [Fetch.ok (ChkItem.mk [Replica.mk (some "a") true] ["a"]),
      Fetch.err]).2.2.2.2.2

/-- Witness for C8 at concrete one-item flanks around the failing item. -/
theorem C8_driver_fault_isolation_witness :
    check_checksums
        ([Fetch.ok (ChkItem.mk [Replica.mk (some "a") true] ["a"])] ++
          Fetch.err ::
            [Fetch.ok (ChkItem.mk [Replica.mk (some "a") true] ["a"])]) =
      ((check_checksums
          [Fetch.ok (ChkItem.mk [Replica.mk (some "a") true] ["a"])]).1 +
        (check_checksums
          [Fetch.ok (ChkItem.mk [Replica.mk (some "a") true] ["a"])]).1 + 1,
        (check_checksums
          [Fetch.ok (ChkItem.mk [Replica.mk (some "a") true] ["a"])]).2.1 +
        (check_checksums
          [Fetch.ok (ChkItem.mk [Replica.mk (some "a") true] ["a"])]).2.1,
        (check_checksums
          [Fetch.ok (ChkItem.mk [Replica.mk (some "a") true] ["a"])]).2.2 +
        (check_checksums
          [Fetch.ok (ChkItem.mk [Replica.mk (some "a") true] ["a"])]).2.2 +
          1) :=
  (C8_driver_fault_isolation
    [Fetch.ok (ChkItem.mk [Replica.mk (some "a") true] ["a"])]
    [Fetch.ok (ChkItem.mk [Replica.mk (some "a") true] ["a"])]).1

end NpgIrods
